import Mathlib

/-!
Verification of the p900_test_suite measurement engine.

This development shallowly embeds the probe codec, probe-injector state
machine, token-bucket rate limiter, packet-size sampling model and the
four-timestamp latency decomposition of the repository, and proves the
behavioural properties stated about them.

Conventions of the embedding:
- Python byte strings are lists of naturals, each < 256.
- Python floats (timestamps, token counts, rates) are modelled as exact
  rationals.
- Fallible operations (struct.pack range checks, bytearray.append range
  checks) return Option.
- Randomness (random.random, random.randint, random.choice,
  random.choices) is modelled by an explicit oracle: a list of rational
  draws in the interval [0, 1), consumed left to right; an exhausted
  oracle yields 0.
-/

namespace P900

/-! Probe packet codec, from core/probe_injector.py (class constants
PROBE_MARKER, PROBE_TYPE_REQUEST, PROBE_TYPE_RESPONSE, PROBE_HEADER_SIZE). -/
def probeMarker : List Nat := [0xBB, 0x44]

def PROBE_TYPE_REQUEST : Nat := 0x10

def PROBE_TYPE_RESPONSE : Nat := 0x11

def PROBE_HEADER_SIZE : Nat := 24

/-- Little-endian byte encoding of a natural in `w` bytes, as produced by
struct.pack with an unsigned little-endian format. -/
def packLE : Nat → Nat → List Nat
  | 0, _ => []
  | w + 1, v => v % 256 :: packLE w (v / 256)

/-- Little-endian decoding of a byte list, as struct.unpack does. -/
def unpackLE (bs : List Nat) : Nat := bs.foldr (fun b acc => b + 256 * acc) 0

/-- Python's `int()` conversion: truncation toward zero. -/
def pyInt (q : ℚ) : ℤ := if 0 ≤ q then ⌊q⌋ else -⌊-q⌋

/-- Result of `ProbeInjector._parse_probe_packet` (a dict in the source). -/
structure ParsedProbe where
  probe_id : Nat
  type : Nat
  timestamp : ℚ
  size : Nat
  valid : Bool
  deriving DecidableEq, Repr

/-- XOR checksum over the 23 header bytes preceding the checksum byte, as
computed by the `for byte in packet: checksum ^= byte` loop of
`_create_probe_packet`. -/
def probeChecksum (probe_id packet_type packet_size tus : Nat) : Nat :=
  (probeMarker ++ packLE 4 probe_id ++ [packet_type] ++ packLE 8 tus ++
    packLE 2 packet_size ++ List.replicate 6 0).foldl Nat.xor 0

/-- Filler appended after the 24-byte header: bytes `(i XOR probe_id) % 256`
for `i` below `packet_size - 24` (the header the payload extends is always
24 bytes long at that point). -/
def probePayload (probe_id packet_size : Nat) : List Nat :=
  (List.range (packet_size - PROBE_HEADER_SIZE)).map
    (fun i => Nat.xor i probe_id % 256)

/-- Byte layout built by `_create_probe_packet`: marker, little-endian probe
id (4 bytes), type byte, microsecond timestamp (8 bytes), declared size
(2 bytes), 6 reserved bytes, the XOR checksum byte, then the filler. -/
def mkProbePacket (probe_id packet_type packet_size tus : Nat) : List Nat :=
  probeMarker ++ packLE 4 probe_id ++ [packet_type] ++ packLE 8 tus ++
    packLE 2 packet_size ++ List.replicate 6 0 ++
    [probeChecksum probe_id packet_type packet_size tus] ++
    probePayload probe_id packet_size

/-- ProbeInjector._create_probe_packet.  The microsecond timestamp is
`int(timestamp * 1_000_000)`.  The guard collects the range checks the
source performs while building the bytearray: struct.pack of the probe id
with format I, bytearray.append of the type byte, struct.pack of the
timestamp with format Q (which also rejects negatives), and struct.pack of
the size with format H; any of them failing raises in Python, here `none`. -/
def createProbePacket (probe_id packet_type packet_size : Nat) (timestamp : ℚ) :
    Option (List Nat) :=
  let tusZ : ℤ := pyInt (timestamp * 1000000)
  if probe_id < 256 ^ 4 ∧ packet_type < 256 ∧ 0 ≤ tusZ ∧ tusZ < 256 ^ 8 ∧
      packet_size < 256 ^ 2 then
    some (mkProbePacket probe_id packet_type packet_size tusZ.toNat)
  else none

/-- ProbeInjector._parse_probe_packet: rejects inputs shorter than the
24-byte header or with a wrong marker, otherwise reads probe id, type byte,
microsecond timestamp (converted back to seconds) and declared size.  The
checksum byte is never examined. -/
def parseProbePacket (data : List Nat) : Option ParsedProbe :=
  if data.length < PROBE_HEADER_SIZE then none
  else if data.take 2 ≠ probeMarker then none
  else some
    { probe_id := unpackLE ((data.drop 2).take 4)
      type := (data.drop 6).headD 0
      timestamp := (unpackLE ((data.drop 7).take 8) : ℚ) / 1000000
      size := unpackLE ((data.drop 15).take 2)
      valid := true }

/-- Modelled from the spec: the probe header checksum rule (the checksum byte
is the XOR of the 23 header bytes before it).  The parser in
core/probe_injector.py never performs this check; this predicate only states
what a checksum verification would test. -/
def specChecksumOk (data : List Nat) : Bool :=
  (data.take 23).foldl Nat.xor 0 == data.getD 23 0

/-- A syntactically well-formed 24-byte probe packet (marker, id 7, type
0x10, timestamp 0, size 24) whose checksum byte is 0 instead of the correct
0xF0. -/
def corruptedChecksumPacket : List Nat :=
  [0xBB, 0x44, 7, 0, 0, 0, 0x10, 0, 0, 0, 0, 0, 0, 0, 0, 24, 0,
    0, 0, 0, 0, 0, 0, 0]

/-! Probe injector state machine, from core/probe_injector.py.  Thread
handles are modelled by a counter of spawned threads; collections.deque
with a maxlen is modelled by lists truncated to their last maxlen
elements after each append. -/
/-- The per-size entry of stats['size_stats'].  The initial value
float('inf') of min_rtt is modelled by `none`. -/
structure SizeStat where
  sent : Nat
  received : Nat
  lost : Nat
  total_rtt : ℚ
  min_rtt : Option ℚ
  max_rtt : ℚ
  deriving DecidableEq, Repr

/-- The ProbeRecord dataclass; status is one of PENDING, RECEIVED,
TIMEOUT as in the source. -/
structure ProbeRecord where
  probe_id : Nat
  timestamp_sent : ℚ
  timestamp_received : ℚ
  packet_size : Nat
  status : String
  rtt_ms : ℚ
  jitter_ms : ℚ
  deriving DecidableEq, Repr

/-- The injector's stats dictionary. -/
structure InjStats where
  total_sent : Nat
  total_received : Nat
  total_lost : Nat
  bytes_sent : Nat
  bytes_received : Nat
  last_rtt_ms : ℚ
  last_jitter_ms : ℚ
  size_stats : List (Nat × SizeStat)
  deriving DecidableEq, Repr

/-- Mutable state of a ProbeInjector instance.  The serial ports are
abstracted to their presence, and the three worker threads to a counter
incremented once per Thread started. -/
structure InjState where
  master_serial : Bool
  slave_serial : Bool
  interval_ms : ℚ
  timeout_ms : ℚ
  history_size : Nat
  running : Bool
  threads_spawned : Nat
  pending : List (Nat × ProbeRecord)
  history : List ProbeRecord
  last_rtt_values : List ℚ
  stats : InjStats
  deriving DecidableEq, Repr

/-- Last `n` elements of a list: the contents of a deque with maxlen `n`
after appending the whole list in order. -/
def lastN (n : Nat) (l : List α) : List α := (l.reverse.take n).reverse

/-- Appending to a deque with maxlen `n`. -/
def pushBounded (n : Nat) (l : List α) (a : α) : List α := lastN n (l ++ [a])

namespace ProbeInjector

/-- The per-size loss update of _check_timeouts: when the packet size is a
key of size_stats, its lost counter is incremented. -/
def bumpLost (size : Nat) (l : List (Nat × SizeStat)) : List (Nat × SizeStat) :=
  l.map (fun kv => if kv.1 = size then
    (kv.1, { kv.2 with lost := kv.2.lost + 1 }) else kv)

/-- Processing of a single timed-out probe id inside _check_timeouts: the
record is popped from the pending dict, marked TIMEOUT, counted as lost,
reflected in the per-size stats and appended to the bounded history. -/
def timeoutOne (st : InjState) (pid : Nat) : InjState :=
  match st.pending.find? (fun pr => pr.1 == pid) with
  | none => st
  | some pr =>
    let record := { pr.2 with status := "TIMEOUT" }
    { st with
      pending := st.pending.eraseP (fun q => q.1 == pid)
      stats := { st.stats with
        total_lost := st.stats.total_lost + 1
        size_stats := bumpLost record.packet_size st.stats.size_stats }
      history := pushBounded st.history_size st.history record }

/-- ProbeInjector._check_timeouts at a given current time: collect the ids
of pending probes older than timeout_ms/1000 seconds, then process each. -/
def checkTimeouts (now : ℚ) (s : InjState) : InjState :=
  let threshold := s.timeout_ms / 1000
  let timed_out := (s.pending.filter
    (fun pr => decide (now - pr.2.timestamp_sent > threshold))).map Prod.fst
  timed_out.foldl timeoutOne s

/-- The per-size success update of _process_probe_response. -/
def bumpReceived (size : Nat) (rtt : ℚ) (l : List (Nat × SizeStat)) :
    List (Nat × SizeStat) :=
  l.map (fun kv => if kv.1 = size then
    (kv.1, { kv.2 with
      received := kv.2.received + 1
      total_rtt := kv.2.total_rtt + rtt
      min_rtt := some (match kv.2.min_rtt with
        | none => rtt
        | some m => min m rtt)
      max_rtt := max kv.2.max_rtt rtt }) else kv)

/-- ProbeInjector._process_probe_response: when the probe id is pending,
pop it, compute RTT and jitter, mark the record RECEIVED, update the
aggregate and per-size statistics and append to the bounded history;
when the probe id is unknown, the body is skipped entirely. -/
def processProbeResponse (probe_id : Nat)
    (original_timestamp received_timestamp : ℚ) (packet_size : Nat)
    (s : InjState) : InjState :=
  match s.pending.find? (fun pr => pr.1 == probe_id) with
  | none => s
  | some pr =>
    let record := pr.2
    let rtt_ms := (received_timestamp - record.timestamp_sent) * 1000
    let jitter_ms := match s.last_rtt_values.getLast? with
      | some last => |rtt_ms - last|
      | none => 0
    let record' := { record with
      timestamp_received := received_timestamp
      status := "RECEIVED"
      rtt_ms := rtt_ms
      jitter_ms := jitter_ms }
    { s with
      pending := s.pending.eraseP (fun q => q.1 == probe_id)
      last_rtt_values := pushBounded 100 s.last_rtt_values rtt_ms
      stats := { s.stats with
        total_received := s.stats.total_received + 1
        bytes_received := s.stats.bytes_received + packet_size
        last_rtt_ms := rtt_ms
        last_jitter_ms := jitter_ms
        size_stats := bumpReceived packet_size rtt_ms s.stats.size_stats }
      history := pushBounded s.history_size s.history record' }

/-- ProbeInjector.start: a no-op when already running; otherwise sets the
running flag and starts the injection and receiver threads when a master
port is present and the responder thread when a slave port is present. -/
def start (s : InjState) : InjState :=
  if s.running then s
  else
    let s₁ := { s with running := true }
    let s₂ := if s.master_serial then
      { s₁ with threads_spawned := s₁.threads_spawned + 2 } else s₁
    if s.slave_serial then
      { s₂ with threads_spawned := s₂.threads_spawned + 1 } else s₂

end ProbeInjector

def recW0 : ProbeRecord :=
  { probe_id := 0, timestamp_sent := 0, timestamp_received := 0,
    packet_size := 64, status := "PENDING", rtt_ms := 0, jitter_ms := 0 }

def recW1 : ProbeRecord := { recW0 with probe_id := 1, timestamp_sent := 99 / 10 }

def sizeStatW : SizeStat :=
  { sent := 2, received := 0, lost := 0, total_rtt := 0, min_rtt := none,
    max_rtt := 0 }

def statsW : InjStats :=
  { total_sent := 2, total_received := 0, total_lost := 0, bytes_sent := 128,
    bytes_received := 0, last_rtt_ms := 0, last_jitter_ms := 0,
    size_stats := [(64, sizeStatW)] }

def injW3 : InjState :=
  { master_serial := true, slave_serial := false, interval_ms := 100,
    timeout_ms := 500, history_size := 1000, running := true,
    threads_spawned := 2, pending := [(0, recW0), (1, recW1)], history := [],
    last_rtt_values := [], stats := statsW }

def injW10 : InjState := { injW3 with running := false, threads_spawned := 0 }

namespace TrafficSimulator

/-! Token-bucket rate limiter, from
core/backup_files/traffic_simulator copy.py (class TrafficSimulator). -/
/-- Rate-limiter fields of a TrafficSimulator instance. -/
structure State where
  tokens : ℚ
  last_token_update : ℚ
  target_bandwidth : ℚ
  bucket_capacity : ℚ
  burst_allowance : ℚ
  burst_count : Nat
  deriving DecidableEq, Repr

/-- TrafficSimulator._update_tokens: refill by elapsed time times the target
rate, capped at bucket_capacity * burst_allowance, and remember the refill
time. -/
def updateTokens (s : State) (now : ℚ) : State :=
  { s with
    tokens := min (s.tokens + (now - s.last_token_update) * s.target_bandwidth)
      (s.bucket_capacity * s.burst_allowance)
    last_token_update := now }

/-- TrafficSimulator._consume_tokens: refill, then subtract the requested
amount and answer true when enough tokens are available (counting a burst
when the refilled level exceeded bucket_capacity), else answer false. -/
def consumeTokens (s : State) (now : ℚ) (amount : Nat) : State × Bool :=
  let s' := updateTokens s now
  let available := s'.tokens
  if (amount : ℚ) ≤ available then
    ({ s' with
        tokens := s'.tokens - (amount : ℚ)
        burst_count := if s.bucket_capacity < available then s'.burst_count + 1
          else s'.burst_count }, true)
  else (s', false)

/-- Limiter fields set by TrafficSimulator.__init__: capacity equal to the
target bandwidth, a full bucket, burst allowance 1.2. -/
def init (target_bandwidth t0 : ℚ) : State :=
  { tokens := target_bandwidth, last_token_update := t0,
    target_bandwidth := target_bandwidth, bucket_capacity := target_bandwidth,
    burst_allowance := 6 / 5, burst_count := 0 }

/-- Limiter states reachable through the cited operations: construction with
a nonnegative target rate, the token reset performed by start(), and
_consume_tokens calls at nondecreasing wall-clock times. -/
inductive Reach : State → Prop
  | init (bw t0 : ℚ) (hbw : 0 ≤ bw) : Reach (init bw t0)
  | start_reset (s : State) (now : ℚ) (h : Reach s) :
      Reach { s with tokens := s.bucket_capacity, last_token_update := now }
  | consume (s : State) (now : ℚ) (amount : Nat) (h : Reach s)
      (hnow : s.last_token_update ≤ now) : Reach (consumeTokens s now amount).1

end TrafficSimulator

/-! Aggregate statistics, from ProbeInjector.get_statistics.  numpy mean,
min, max, population standard deviation and linearly interpolated
percentiles are modelled over exact rationals (std over the reals, since it
takes a square root). -/
def npMean (l : List ℚ) : ℚ := l.sum / l.length

def listMin (l : List ℚ) : ℚ :=
  match l with
  | [] => 0
  | x :: xs => xs.foldl min x

def listMax (l : List ℚ) : ℚ :=
  match l with
  | [] => 0
  | x :: xs => xs.foldl max x

noncomputable def npStd (l : List ℚ) : ℝ :=
  Real.sqrt (((l.map (fun x => (x - npMean l) ^ 2)).sum / l.length : ℚ) : ℝ)

def insertAsc (x : ℚ) : List ℚ → List ℚ
  | [] => [x]
  | y :: ys => if x ≤ y then x :: y :: ys else y :: insertAsc x ys

def sortAsc (l : List ℚ) : List ℚ := l.foldr insertAsc []

/-- numpy's default (linear interpolation) percentile over a nonempty list;
0 on the empty list (numpy raises there, but get_statistics only calls it
with at least one RTT sample). -/
def npPercentile (l : List ℚ) (q : ℚ) : ℚ :=
  match sortAsc l with
  | [] => 0
  | x :: xs =>
    let sorted := x :: xs
    let h : ℚ := ((sorted.length : ℚ) - 1) * q / 100
    let i : Nat := (⌊h⌋).toNat
    let lo := sorted.getD i 0
    let hi := sorted.getD (i + 1) lo
    lo + (h - (i : ℚ)) * (hi - lo)

/-- The ProbeStatistics dataclass. -/
structure ProbeStatistics where
  total_sent : Nat
  total_received : Nat
  total_lost : Nat
  loss_rate : ℚ
  avg_rtt_ms : ℚ
  min_rtt_ms : ℚ
  max_rtt_ms : ℚ
  std_rtt_ms : ℝ
  avg_jitter_ms : ℚ
  max_jitter_ms : ℚ
  percentile_95_ms : ℚ
  percentile_99_ms : ℚ
  current_rate_hz : ℚ
  bytes_sent : Nat
  bytes_received : Nat
  stats_by_size : List (Nat × SizeStat)
  size_distribution : List (Nat × Nat)

/-- ProbeInjector.get_statistics: with no RECEIVED probe in the history it
returns the zeroed record (loss_rate 100 when anything was sent); otherwise
it aggregates the RTTs of the received probes and their positive jitters. -/
noncomputable def getStatistics (s : InjState) : ProbeStatistics :=
  let received_probes := s.history.filter
    (fun p => decide (p.status = "RECEIVED"))
  if received_probes = [] then
    { total_sent := s.stats.total_sent
      total_received := 0
      total_lost := s.stats.total_lost
      loss_rate := if s.stats.total_sent ≠ 0 then 100 else 0
      avg_rtt_ms := 0, min_rtt_ms := 0, max_rtt_ms := 0, std_rtt_ms := 0
      avg_jitter_ms := 0, max_jitter_ms := 0
      percentile_95_ms := 0, percentile_99_ms := 0
      current_rate_hz := if s.interval_ms ≠ 0 then 1000 / s.interval_ms else 0
      bytes_sent := s.stats.bytes_sent
      bytes_received := s.stats.bytes_received
      stats_by_size := s.stats.size_stats
      size_distribution := s.stats.size_stats.map (fun kv => (kv.1, kv.2.sent)) }
  else
    let rtts := received_probes.map (fun p => p.rtt_ms)
    let jitters := (received_probes.map (fun p => p.jitter_ms)).filter
      (fun j => decide (0 < j))
    { total_sent := s.stats.total_sent
      total_received := s.stats.total_received
      total_lost := s.stats.total_lost
      loss_rate := if s.stats.total_sent > 0 then
        ((s.stats.total_lost : ℚ) / (s.stats.total_sent : ℚ)) * 100 else 0
      avg_rtt_ms := npMean rtts
      min_rtt_ms := listMin rtts
      max_rtt_ms := listMax rtts
      std_rtt_ms := npStd rtts
      avg_jitter_ms := if jitters ≠ [] then npMean jitters else 0
      max_jitter_ms := if jitters ≠ [] then listMax jitters else 0
      percentile_95_ms := npPercentile rtts 95
      percentile_99_ms := npPercentile rtts 99
      current_rate_hz := if s.interval_ms ≠ 0 then 1000 / s.interval_ms else 0
      bytes_sent := s.stats.bytes_sent
      bytes_received := s.stats.bytes_received
      stats_by_size := s.stats.size_stats
      size_distribution := s.stats.size_stats.map (fun kv => (kv.1, kv.2.sent)) }

namespace P900Tester

/-! Four-timestamp latency decomposition, from
core/p900_tester.py (P900NetworkTesterEnhanced.measure_latency). -/
/-- The response dict queued by the master receiver: the three timestamps
carried in the RESPONSE packet plus the local receive time t4. -/
structure RespData where
  packet_id : Nat
  t1 : ℚ
  t2 : ℚ
  t3 : ℚ
  t4 : ℚ
  deriving DecidableEq, Repr

/-- The DetailedLatencyMeasurement dataclass. -/
structure DetailedLatencyMeasurement where
  packet_id : Nat
  t1_master_send : ℚ
  t2_slave_receive : ℚ
  t3_slave_send : ℚ
  t4_master_receive : ℚ
  forward_delay_ms : ℚ
  return_delay_ms : ℚ
  rtt_ms : ℚ
  processing_time_ms : ℚ
  asymmetry_ms : ℚ
  status : String
  deriving DecidableEq, Repr

/-- One iteration of the measure_latency loop after sending request
packet_id at time t1: on a response with the matching id an OK record with
the four delay decompositions; on a response with another id a MISMATCH
record; on queue timeout (no response) a TIMEOUT record. -/
def measureOne (packet_id : Nat) (t1 : ℚ) (resp : Option RespData) :
    DetailedLatencyMeasurement :=
  match resp with
  | some rd =>
    if rd.packet_id = packet_id then
      let forward_ms := (rd.t2 - rd.t1) * 1000
      let return_ms := (rd.t4 - rd.t3) * 1000
      let rtt_ms := (rd.t4 - rd.t1) * 1000
      let proc_ms := (rd.t3 - rd.t2) * 1000
      let asym_ms := forward_ms - return_ms
      { packet_id := packet_id
        t1_master_send := rd.t1
        t2_slave_receive := rd.t2
        t3_slave_send := rd.t3
        t4_master_receive := rd.t4
        forward_delay_ms := forward_ms
        return_delay_ms := return_ms
        rtt_ms := rtt_ms
        processing_time_ms := proc_ms
        asymmetry_ms := asym_ms
        status := "OK" }
    else
      { packet_id := packet_id, t1_master_send := t1, t2_slave_receive := 0,
        t3_slave_send := 0, t4_master_receive := 0, forward_delay_ms := 0,
        return_delay_ms := 0, rtt_ms := 0, processing_time_ms := 0,
        asymmetry_ms := 0, status := "MISMATCH" }
  | none =>
    { packet_id := packet_id, t1_master_send := t1, t2_slave_receive := 0,
      t3_slave_send := 0, t4_master_receive := 0, forward_delay_ms := 0,
      return_delay_ms := 0, rtt_ms := 0, processing_time_ms := 0,
      asymmetry_ms := 0, status := "TIMEOUT" }

end P900Tester

/-! Packet-size sampling, from core/mavlink_profile.py (class
MAVLinkProfile).  Each call to the random module consumes one oracle value
from the head of an explicit list of draws in [0, 1). -/
/-- A PacketProfile entry (description field omitted, it is never read). -/
structure PacketProfile where
  msg_type : String
  msg_id : Nat
  size : Nat
  frequency_hz : ℚ
  weight : ℚ
  deriving DecidableEq, Repr

/-- One category of the size_distribution dict. -/
structure DistCategory where
  name : String
  probability : ℚ
  min_bytes : Nat
  max_bytes : Nat
  representative : Nat
  deriving DecidableEq, Repr

/-- The profile data read by get_packet_sizes: the message profiles, the
size distribution, statistics min_size / max_size, and the representative
sizes. -/
structure MAVLinkProfile where
  packet_profiles : List PacketProfile
  size_distribution : List DistCategory
  min_size : Nat
  max_size : Nat
  representative_sizes : List Nat
  deriving DecidableEq, Repr

/-- The default profile loaded by _load_default_profile. -/
def defaultProfile : MAVLinkProfile :=
  { packet_profiles := [
      ⟨"ATTITUDE", 30, 40, 574 / 100, 2837 / 10000⟩,
      ⟨"MISSION_CURRENT", 42, 13, 954 / 100, 206 / 1000⟩,
      ⟨"GLOBAL_POSITION_INT", 33, 40, 191 / 100, 944 / 10000⟩,
      ⟨"VFR_HUD", 74, 31, 153 / 100, 755 / 10000⟩,
      ⟨"HEARTBEAT", 0, 21, 1, 494 / 10000⟩,
      ⟨"SYS_STATUS", 1, 44, 95 / 100, 426 / 10000⟩,
      ⟨"GPS_RAW_INT", 24, 37, 88 / 100, 38 / 1000⟩,
      ⟨"NAV_CONTROLLER_OUTPUT", 62, 33, 67 / 100, 243 / 10000⟩,
      ⟨"RC_CHANNELS", 65, 52, 52 / 100, 189 / 10000⟩,
      ⟨"SERVO_OUTPUT_RAW", 36, 53, 45 / 100, 163 / 10000⟩ ],
    size_distribution := [
      ⟨"tiny", 2934 / 10000, 0, 25, 13⟩,
      ⟨"small", 2088 / 10000, 25, 40, 30⟩,
      ⟨"medium", 4063 / 10000, 40, 50, 40⟩,
      ⟨"large", 96 / 10000, 50, 60, 55⟩,
      ⟨"xlarge", 819 / 10000, 60, 280, 82⟩ ],
    min_size := 13, max_size := 82,
    representative_sizes := [13, 21, 30, 31, 33, 37, 40, 44, 52, 82] }

/-- random.random(): pop the next oracle draw (0 when exhausted). -/
def randFloat (rs : List ℚ) : ℚ × List ℚ :=
  match rs with
  | [] => (0, [])
  | r :: rest => (r, rest)

/-- random.randint(a, b): a uniform integer of [a, b], realized as
a + floor(r * (b + 1 - a)) for the oracle draw r. -/
def randInt (a b : Nat) (rs : List ℚ) : Nat × List ℚ :=
  (a + (⌊(randFloat rs).1 * ((b : ℚ) + 1 - (a : ℚ))⌋).toNat, (randFloat rs).2)

/-- random.choice(l): a uniform element, realized via floor(r * len(l)). -/
def randChoice (l : List Nat) (rs : List ℚ) : Nat × List ℚ :=
  (l.getD (⌊(randFloat rs).1 * (l.length : ℚ)⌋).toNat 0, (randFloat rs).2)

/-- Cumulative walk of random.choices over weighted profiles. -/
def weightedPickAux (target : ℚ) (acc : ℚ) :
    List PacketProfile → Option PacketProfile
  | [] => none
  | p :: rest => if target < acc + p.weight then some p
      else weightedPickAux target (acc + p.weight) rest

/-- random.choices(packet_profiles, weights)[0] for one oracle draw. -/
def weightedPick (ps : List PacketProfile) (r : ℚ) : Option PacketProfile :=
  weightedPickAux (r * (ps.map (fun p => p.weight)).sum) 0 ps

/-- The cumulative-probability category walk of _sample_from_distribution. -/
def pickCategory (r : ℚ) (acc : ℚ) :
    List DistCategory → Option DistCategory
  | [] => none
  | c :: rest => if r < acc + c.probability then some c
      else pickCategory r (acc + c.probability) rest

/-- MAVLinkProfile._sample_from_distribution: draw a category by cumulative
probability and a uniform size in [min_bytes, min(max_bytes, 82)];
fall back to a representative size if the walk selects nothing. -/
def sampleFromDistribution (p : MAVLinkProfile) (rs : List ℚ) :
    Nat × List ℚ :=
  let r := (randFloat rs).1
  let rest := (randFloat rs).2
  match pickCategory r 0 p.size_distribution with
  | some c => randInt c.min_bytes (min c.max_bytes 82) rest
  | none => randChoice p.representative_sizes rest

/-- One size drawn by MAVLinkProfile.get_packet_sizes: representative mode
chooses among the representative sizes, random mode a uniform integer of
[min_size, max_size], and any other mode the realistic mixture — with
probability 0.7 a weighted common-message size (0 stands for the
unreachable empty weighted choice), else a distribution sample. -/
def oneSize (p : MAVLinkProfile) (mode : String) (rs : List ℚ) :
    Nat × List ℚ :=
  if mode = "representative" then randChoice p.representative_sizes rs
  else if mode = "random" then randInt p.min_size p.max_size rs
  else
    let r := (randFloat rs).1
    let rest := (randFloat rs).2
    if r < 7 / 10 ∧ p.packet_profiles ≠ [] then
      match weightedPick p.packet_profiles (randFloat rest).1 with
      | some prof => (prof.size, (randFloat rest).2)
      | none => (0, (randFloat rest).2)
    else sampleFromDistribution p rest

/-- MAVLinkProfile.get_packet_sizes: `count` sizes drawn in sequence. -/
def getPacketSizes (p : MAVLinkProfile) (count : Nat) (mode : String)
    (rs : List ℚ) : List Nat × List ℚ :=
  match count with
  | 0 => ([], rs)
  | n + 1 =>
    ((oneSize p mode rs).1 ::
        (getPacketSizes p n mode (oneSize p mode rs).2).1,
      (getPacketSizes p n mode (oneSize p mode rs).2).2)

def representativeMode : String := "representative"

def randomMode : String := "random"

def realisticMode : String := "realistic"

/-- A well-formed oracle: every draw lies in [0, 1). -/
def OracleOk (rs : List ℚ) : Prop := ∀ r ∈ rs, 0 ≤ r ∧ r < 1

theorem length_packLE (w v : Nat) : (packLE w v).length = w := by
  induction w generalizing v with
  | zero => simp [packLE]
  | succ n ih => simp [packLE, ih]

theorem unpackLE_cons (b : Nat) (l : List Nat) :
    unpackLE (b :: l) = b + 256 * unpackLE l := rfl

theorem unpackLE_packLE (w v : Nat) (h : v < 256 ^ w) :
    unpackLE (packLE w v) = v := by
  induction w generalizing v with
  | zero =>
    simp [packLE, unpackLE]
    omega
  | succ n ih =>
    have hdiv : v / 256 < 256 ^ n := by
      rw [Nat.div_lt_iff_lt_mul (by norm_num)]
      calc v < 256 ^ (n + 1) := h
      _ = 256 ^ n * 256 := by ring
    rw [packLE, unpackLE_cons, ih _ hdiv]
    omega

theorem length_mkProbePacket (pid pt sz tus : Nat) :
    (mkProbePacket pid pt sz tus).length = 24 + (sz - 24) := by
  simp [mkProbePacket, probeMarker, probePayload, length_packLE, PROBE_HEADER_SIZE]
  omega

theorem mkProbePacket_marker (pid pt sz tus : Nat) :
    (mkProbePacket pid pt sz tus).take 2 = probeMarker := by
  have h : mkProbePacket pid pt sz tus = probeMarker ++
      (packLE 4 pid ++ ([pt] ++ (packLE 8 tus ++ (packLE 2 sz ++
        (List.replicate 6 0 ++ ([probeChecksum pid pt sz tus] ++
          probePayload pid sz)))))) := by
    simp [mkProbePacket, List.append_assoc]
  rw [h, List.take_left' (by simp [probeMarker])]

theorem mkProbePacket_id (pid pt sz tus : Nat) :
    ((mkProbePacket pid pt sz tus).drop 2).take 4 = packLE 4 pid := by
  have h : mkProbePacket pid pt sz tus = probeMarker ++
      (packLE 4 pid ++ ([pt] ++ (packLE 8 tus ++ (packLE 2 sz ++
        (List.replicate 6 0 ++ ([probeChecksum pid pt sz tus] ++
          probePayload pid sz)))))) := by
    simp [mkProbePacket, List.append_assoc]
  rw [h, List.drop_left' (by simp [probeMarker]),
    List.take_left' (length_packLE 4 pid)]

theorem mkProbePacket_type (pid pt sz tus : Nat) :
    ((mkProbePacket pid pt sz tus).drop 6).headD 0 = pt := by
  have h : mkProbePacket pid pt sz tus =
      (probeMarker ++ packLE 4 pid) ++
      ([pt] ++ (packLE 8 tus ++ (packLE 2 sz ++
        (List.replicate 6 0 ++ ([probeChecksum pid pt sz tus] ++
          probePayload pid sz))))) := by
    simp [mkProbePacket, List.append_assoc]
  rw [h, List.drop_left' (by simp [probeMarker, length_packLE])]
  simp

theorem mkProbePacket_ts (pid pt sz tus : Nat) :
    ((mkProbePacket pid pt sz tus).drop 7).take 8 = packLE 8 tus := by
  have h : mkProbePacket pid pt sz tus =
      (probeMarker ++ packLE 4 pid ++ [pt]) ++
      (packLE 8 tus ++ (packLE 2 sz ++
        (List.replicate 6 0 ++ ([probeChecksum pid pt sz tus] ++
          probePayload pid sz)))) := by
    simp [mkProbePacket, List.append_assoc]
  rw [h, List.drop_left' (by simp [probeMarker, length_packLE]),
    List.take_left' (length_packLE 8 tus)]

theorem mkProbePacket_size (pid pt sz tus : Nat) :
    ((mkProbePacket pid pt sz tus).drop 15).take 2 = packLE 2 sz := by
  have h : mkProbePacket pid pt sz tus =
      (probeMarker ++ packLE 4 pid ++ [pt] ++ packLE 8 tus) ++
      (packLE 2 sz ++ (List.replicate 6 0 ++
        ([probeChecksum pid pt sz tus] ++ probePayload pid sz))) := by
    simp [mkProbePacket, List.append_assoc]
  rw [h, List.drop_left' (by simp [probeMarker, length_packLE]),
    List.take_left' (length_packLE 2 sz)]

theorem parse_mkProbePacket (pid pt sz tus : Nat) (h1 : pid < 2 ^ 32)
    (h4 : sz < 2 ^ 16) (htus : tus < 2 ^ 64) :
    parseProbePacket (mkProbePacket pid pt sz tus) =
      some ⟨pid, pt, (tus : ℚ) / 1000000, sz, true⟩ := by
  have hlen := length_mkProbePacket pid pt sz tus
  rw [parseProbePacket,
    if_neg (by rw [hlen]; simp [PROBE_HEADER_SIZE]),
    if_neg (by rw [mkProbePacket_marker]; simp)]
  rw [mkProbePacket_id, mkProbePacket_type, mkProbePacket_ts,
    mkProbePacket_size,
    unpackLE_packLE 4 pid (by norm_num at h1 ⊢; exact h1),
    unpackLE_packLE 8 tus (by norm_num at htus ⊢; exact htus),
    unpackLE_packLE 2 sz (by norm_num at h4 ⊢; exact h4)]

/-- Claim C1 counterexample: the claim quantifies over every size at or above
the 24-byte header, but struct.pack with format H rejects sizes at or above
2^16, so for size 65536 no packet is produced at all (the source raises
struct.error) and no round trip can happen. -/
theorem probe_codec_roundtrip_cex : createProbePacket 0 16 65536 0 = none := by
  rw [createProbePacket]
  norm_num [pyInt]

/-- Claim C1 (amended): for probe_id below 2^32, any type byte, any size in
[24, 2^16) and any nonnegative timestamp below 2^64 microseconds, the packet
built by _create_probe_packet has exactly the requested length, and
_parse_probe_packet recovers the same probe_id, type and declared size, and
the timestamp to within one microsecond (it returns the sent timestamp
truncated to whole microseconds). -/
theorem probe_codec_roundtrip (probe_id packet_type packet_size : Nat) (t : ℚ)
    (h1 : probe_id < 2 ^ 32) (h2 : packet_type < 256)
    (h3 : 24 ≤ packet_size) (h4 : packet_size < 2 ^ 16)
    (h5 : 0 ≤ t) (h6 : t * 1000000 < 2 ^ 64) :
    ∃ pkt parsed,
      createProbePacket probe_id packet_type packet_size t = some pkt ∧
      pkt.length = packet_size ∧
      parseProbePacket pkt = some parsed ∧
      parsed.probe_id = probe_id ∧
      parsed.type = packet_type ∧
      parsed.size = packet_size ∧
      0 ≤ t - parsed.timestamp ∧
      t - parsed.timestamp < 1 / 1000000 := by
  have ht6 : 0 ≤ t * 1000000 := by positivity
  have hfloor : pyInt (t * 1000000) = ⌊t * 1000000⌋ := if_pos ht6
  have h0z : (0 : ℤ) ≤ pyInt (t * 1000000) := by
    rw [hfloor]; exact Int.floor_nonneg.2 ht6
  have hltz : pyInt (t * 1000000) < 256 ^ 8 := by
    rw [hfloor]
    refine Int.floor_lt.2 ?_
    calc t * 1000000 < 2 ^ 64 := h6
    _ = ((256 ^ 8 : ℤ) : ℚ) := by norm_num
  have hcond : probe_id < 256 ^ 4 ∧ packet_type < 256 ∧
      0 ≤ pyInt (t * 1000000) ∧ pyInt (t * 1000000) < 256 ^ 8 ∧
      packet_size < 256 ^ 2 := by
    refine ⟨by norm_num at h1 ⊢; exact h1, h2, h0z, hltz,
      by norm_num at h4 ⊢; exact h4⟩
  have hc : createProbePacket probe_id packet_type packet_size t =
      some (mkProbePacket probe_id packet_type packet_size
        (pyInt (t * 1000000)).toNat) := by
    rw [createProbePacket]
    exact if_pos hcond
  have htusn : (pyInt (t * 1000000)).toNat < 2 ^ 64 := by
    have := hcond.2.2.2.1
    omega
  have hcast : (((pyInt (t * 1000000)).toNat : ℕ) : ℚ) =
      ((⌊t * 1000000⌋ : ℤ) : ℚ) := by
    rw [← hfloor]
    exact_mod_cast congrArg (fun z : ℤ => (z : ℚ)) (Int.toNat_of_nonneg h0z)
  refine ⟨_, _, hc, ?_, parse_mkProbePacket _ _ _ _ h1 h4 htusn,
    rfl, rfl, rfl, ?_, ?_⟩
  · rw [length_mkProbePacket]; omega
  · have hle : ((⌊t * 1000000⌋ : ℤ) : ℚ) ≤ t * 1000000 := Int.floor_le _
    rw [hcast] at *
    rw [sub_nonneg]
    rw [div_le_iff₀ (by norm_num)]
    linarith
  · have hlt : t * 1000000 < ((⌊t * 1000000⌋ : ℤ) : ℚ) + 1 :=
      Int.lt_floor_add_one _
    rw [hcast]
    rw [sub_lt_iff_lt_add, div_add_div_same, lt_div_iff₀ (by norm_num)]
    linarith

/-- Concrete instantiation of the codec round trip: probe id 7, type 0x10,
size 24, timestamp 1.5 seconds. -/
theorem probe_codec_roundtrip_witness :
    ∃ pkt parsed,
      createProbePacket 7 16 24 (3 / 2) = some pkt ∧
      pkt.length = 24 ∧
      parseProbePacket pkt = some parsed ∧
      parsed.probe_id = 7 ∧
      parsed.type = 16 ∧
      parsed.size = 24 ∧
      0 ≤ 3 / 2 - parsed.timestamp ∧
      3 / 2 - parsed.timestamp < 1 / 1000000 :=
  probe_codec_roundtrip 7 16 24 (3 / 2) (by norm_num) (by norm_num)
    (by norm_num) (by norm_num) (by norm_num) (by norm_num)

/-- Claim C2 counterexample: a packet whose checksum byte has been corrupted
is still parsed successfully (the source never verifies the checksum), so a
checksum mismatch does not make _parse_probe_packet return None. -/
theorem parse_ignores_bad_checksum :
    specChecksumOk corruptedChecksumPacket = false ∧
      parseProbePacket corruptedChecksumPacket = some ⟨7, 16, 0, 24, true⟩ := by
  constructor
  · rfl
  · rw [parseProbePacket]
    norm_num [corruptedChecksumPacket, PROBE_HEADER_SIZE, probeMarker, unpackLE]

/-- Claim C2 (amended): _parse_probe_packet is total (never raises) and
returns None exactly when the input has fewer than 24 bytes or its first two
bytes are not the marker 0xBB 0x44.  The header checksum is not verified, so
a corrupted checksum byte does not cause rejection. -/
theorem parse_none_iff (data : List Nat) :
    parseProbePacket data = none ↔
      data.length < PROBE_HEADER_SIZE ∨ data.take 2 ≠ probeMarker := by
  rw [parseProbePacket]
  by_cases hl : data.length < PROBE_HEADER_SIZE
  · simp [hl]
  · by_cases hm : data.take 2 ≠ probeMarker
    · simp [hl, hm]
    · simp [hl, hm]

theorem length_lastN_le (n : Nat) (l : List α) : (lastN n l).length ≤ n := by
  simp [lastN]

theorem lastN_of_length_le {n : Nat} {l : List α} (h : l.length ≤ n) :
    lastN n l = l := by
  rw [lastN, List.take_of_length_le (by simpa using h), List.reverse_reverse]

theorem lastN_append_lastN (n : Nat) (l l₂ : List α) :
    lastN n (lastN n l ++ l₂) = lastN n (l ++ l₂) := by
  have key : ∀ (a b : List α), (a ++ b.take n).take n = (a ++ b).take n := by
    intro a b
    rw [List.take_append_eq_append_take, List.take_append_eq_append_take,
      List.take_take]
    congr 1
    rw [min_eq_left (Nat.sub_le n a.length)]
  simp only [lastN, List.reverse_append, List.reverse_reverse]
  rw [key]

theorem find?_append_of_forall_neg {α : Type} {p : α → Bool} {u : List α}
    (l : List α) (h : ∀ x ∈ u, p x = false) :
    (u ++ l).find? p = l.find? p := by
  induction u with
  | nil => rfl
  | cons a as ih =>
    rw [List.cons_append, List.find?_cons_of_neg _ (by simp [h a (by simp)])]
    exact ih (fun x hx => h x (by simp [hx]))

theorem foldl_timeoutOne_spec (P : Nat × ProbeRecord → Bool)
    (p : List (Nat × ProbeRecord)) :
    ∀ (u : List (Nat × ProbeRecord)) (st : InjState),
      ((u ++ p).map Prod.fst).Nodup → st.pending = u ++ p →
      st.history.length ≤ st.history_size →
      (((p.filter P).map Prod.fst).foldl ProbeInjector.timeoutOne st).pending =
          u ++ p.filter (fun x => !P x) ∧
      (((p.filter P).map Prod.fst).foldl
          ProbeInjector.timeoutOne st).stats.total_lost =
          st.stats.total_lost + (p.filter P).length ∧
      (((p.filter P).map Prod.fst).foldl ProbeInjector.timeoutOne st).history =
          lastN st.history_size (st.history ++
            (p.filter P).map (fun pr => { pr.2 with status := "TIMEOUT" })) ∧
      (((p.filter P).map Prod.fst).foldl
          ProbeInjector.timeoutOne st).history_size = st.history_size := by
  induction p with
  | nil =>
    intro u st hnd hpend hlen
    refine ⟨by simpa using hpend, by simp, ?_, rfl⟩
    simp only [List.filter_nil, List.map_nil, List.foldl_nil, List.append_nil]
    exact (lastN_of_length_le hlen).symm
  | cons pr rest ih =>
    intro u st hnd hpend hlen
    by_cases hP : P pr
    · have hnotu : ∀ x ∈ u, (x.1 == pr.1) = false := by
        intro x hx
        rw [List.map_append, List.nodup_append] at hnd
        have hdisj := hnd.2.2
        simp only [beq_eq_false_iff_ne, ne_eq]
        intro he
        exact hdisj (he ▸ List.mem_map_of_mem Prod.fst hx) (by simp)
      have hfind : st.pending.find? (fun q => q.1 == pr.1) = some pr := by
        rw [hpend, find?_append_of_forall_neg _ hnotu,
          List.find?_cons_of_pos _ (by simp)]
      have herase : st.pending.eraseP (fun q => q.1 == pr.1) = u ++ rest := by
        rw [hpend, List.eraseP_append_right _ (by intro b hb; simp [hnotu b hb]),
          List.eraseP_cons_of_pos (by simp)]
      have hbody : ProbeInjector.timeoutOne st pr.1 =
          { st with
            pending := u ++ rest
            stats := { st.stats with
              total_lost := st.stats.total_lost + 1
              size_stats := ProbeInjector.bumpLost pr.2.packet_size
                st.stats.size_stats }
            history := pushBounded st.history_size st.history
              { pr.2 with status := "TIMEOUT" } } := by
        simp only [ProbeInjector.timeoutOne, hfind, herase]
      have hnd' : ((u ++ rest).map Prod.fst).Nodup :=
        List.Nodup.sublist
          ((List.Sublist.append (List.Sublist.refl u)
            (List.sublist_cons_self pr rest)).map Prod.fst) hnd
      have ihres := ih u (ProbeInjector.timeoutOne st pr.1) hnd'
        (by rw [hbody]) (by rw [hbody]; exact length_lastN_le _ _)
      obtain ⟨ihp, ihl, ihh, ihhs⟩ := ihres
      have hstep : ((List.filter P (pr :: rest)).map Prod.fst).foldl
          ProbeInjector.timeoutOne st =
          ((List.filter P rest).map Prod.fst).foldl ProbeInjector.timeoutOne
            (ProbeInjector.timeoutOne st pr.1) := by
        rw [List.filter_cons, if_pos hP, List.map_cons, List.foldl_cons]
      refine ⟨?_, ?_, ?_, ?_⟩
      · rw [hstep, ihp, List.filter_cons, if_neg (by simp [hP])]
      · rw [hstep, ihl, hbody, List.filter_cons, if_pos hP]
        simp only [List.length_cons]
        omega
      · rw [hstep, ihh, hbody]
        simp only [pushBounded]
        rw [lastN_append_lastN, List.filter_cons, if_pos hP, List.map_cons]
        simp [List.append_assoc]
      · rw [hstep, ihhs, hbody]
    · have hpend' : st.pending = (u ++ [pr]) ++ rest := by
        rw [hpend]; simp
      have hnd' : (((u ++ [pr]) ++ rest).map Prod.fst).Nodup := by
        have : (u ++ [pr]) ++ rest = u ++ (pr :: rest) := by simp
        rw [this]; exact hnd
      have ihres := ih (u ++ [pr]) st hnd' hpend' hlen
      obtain ⟨ihp, ihl, ihh, ihhs⟩ := ihres
      rw [List.filter_cons, if_neg hP]
      refine ⟨?_, ihl, ihh, ihhs⟩
      rw [ihp, List.filter_cons, if_pos (by simp [hP])]
      simp

/-- Claim C3: every pending probe older than timeout_ms (strictly) at sweep
time is removed from the pending table, its record (with status TIMEOUT) is
appended to the bounded history, and total_lost grows by one per such
entry; younger entries stay in the table unchanged, in order.  The pending
table is a Python dict, so its keys are distinct, and the history deque
never holds more than history_size records. -/
theorem checkTimeouts_spec (s : InjState) (now : ℚ)
    (hnd : (s.pending.map Prod.fst).Nodup)
    (hh : s.history.length ≤ s.history_size) :
    (ProbeInjector.checkTimeouts now s).pending =
        s.pending.filter
          (fun pr => !decide (now - pr.2.timestamp_sent > s.timeout_ms / 1000)) ∧
      (ProbeInjector.checkTimeouts now s).stats.total_lost =
        s.stats.total_lost +
          (s.pending.filter
            (fun pr => decide (now - pr.2.timestamp_sent > s.timeout_ms / 1000))).length ∧
      (ProbeInjector.checkTimeouts now s).history =
        lastN s.history_size (s.history ++
          (s.pending.filter
            (fun pr => decide (now - pr.2.timestamp_sent > s.timeout_ms / 1000))).map
            (fun pr => { pr.2 with status := "TIMEOUT" })) := by
  have h := foldl_timeoutOne_spec
    (fun pr => decide (now - pr.2.timestamp_sent > s.timeout_ms / 1000))
    s.pending [] s (by simpa using hnd) rfl hh
  rw [ProbeInjector.checkTimeouts]
  exact ⟨by simpa using h.1, h.2.1, h.2.2.1⟩

/-- Concrete instantiation of the timeout sweep at time 10 on a state with
one expired and one fresh pending probe. -/
theorem checkTimeouts_spec_witness :
    (ProbeInjector.checkTimeouts 10 injW3).pending =
        injW3.pending.filter
          (fun pr => !decide (10 - pr.2.timestamp_sent > injW3.timeout_ms / 1000)) ∧
      (ProbeInjector.checkTimeouts 10 injW3).stats.total_lost =
        injW3.stats.total_lost +
          (injW3.pending.filter
            (fun pr => decide (10 - pr.2.timestamp_sent > injW3.timeout_ms / 1000))).length ∧
      (ProbeInjector.checkTimeouts 10 injW3).history =
        lastN injW3.history_size (injW3.history ++
          (injW3.pending.filter
            (fun pr => decide (10 - pr.2.timestamp_sent > injW3.timeout_ms / 1000))).map
            (fun pr => { pr.2 with status := "TIMEOUT" })) :=
  checkTimeouts_spec injW3 10 (by decide) (by decide)

/-- Claim C9 counterexample: a response for the unknown probe id 42 leaves
the whole injector state (statistics included) unchanged, so no mismatch
counter is incremented — the module keeps no such counter. -/
theorem processProbeResponse_unknown_cex :
    ProbeInjector.processProbeResponse 42 0 1 64 injW3 = injW3 := rfl

/-- Claim C9 (amended): a response whose probe id is not in the pending
table is discarded with no state change at all: the pending table, history,
statistics and RTT/jitter data are untouched and no counter of any kind is
incremented (the injector has no mismatch counter). -/
theorem processProbeResponse_unknown (probe_id : Nat)
    (original_timestamp received_timestamp : ℚ) (packet_size : Nat)
    (s : InjState) (h : probe_id ∉ s.pending.map Prod.fst) :
    ProbeInjector.processProbeResponse probe_id original_timestamp
      received_timestamp packet_size s = s := by
  have hf : s.pending.find? (fun pr => pr.1 == probe_id) = none := by
    rw [List.find?_eq_none]
    intro x hx
    simp only [beq_eq_false_iff_ne, ne_eq, Bool.not_eq_true]
    intro he
    exact h (he ▸ List.mem_map_of_mem Prod.fst hx)
  rw [ProbeInjector.processProbeResponse, hf]

/-- Concrete instantiation: a response for id 5 against a table holding only
ids 0 and 1 is a no-op. -/
theorem processProbeResponse_unknown_witness :
    ProbeInjector.processProbeResponse 5 0 1 30 injW3 = injW3 :=
  processProbeResponse_unknown 5 0 1 30 injW3 (by decide)

/-- Claim C10: start() on a running injector is a no-op (same state, no new
threads); from the stopped state it sets the running flag and spawns the
injection and receiver threads when a master port is present and the
responder thread when a slave port is present, leaving the pending table,
history and statistics untouched. -/
theorem start_spec :
    (∀ s : InjState, s.running = true → ProbeInjector.start s = s) ∧
    (∀ s : InjState, s.running = false →
      (ProbeInjector.start s).running = true ∧
      (ProbeInjector.start s).threads_spawned = s.threads_spawned +
        (if s.master_serial then 2 else 0) +
        (if s.slave_serial then 1 else 0) ∧
      (ProbeInjector.start s).pending = s.pending ∧
      (ProbeInjector.start s).history = s.history ∧
      (ProbeInjector.start s).stats = s.stats) := by
  constructor
  · intro s h
    rw [ProbeInjector.start, if_pos h]
  · intro s h
    rw [ProbeInjector.start, if_neg (by simp [h])]
    by_cases hm : s.master_serial <;> by_cases hs' : s.slave_serial <;>
      simp [hm, hs']

/-- Concrete instantiation of start(): a no-op on a running state, and flag
plus thread bookkeeping on a stopped one. -/
theorem start_spec_witness :
    ProbeInjector.start injW3 = injW3 ∧
      (ProbeInjector.start injW10).running = true ∧
      (ProbeInjector.start injW10).threads_spawned = 2 :=
  ⟨start_spec.1 injW3 rfl,
    (start_spec.2 injW10 rfl).1,
    by
      have h := (start_spec.2 injW10 rfl).2.1
      simpa [injW10, injW3] using h⟩

namespace TrafficSimulator

theorem reach_inv (s : State) (h : Reach s) :
    0 ≤ s.tokens ∧ s.tokens ≤ s.bucket_capacity * s.burst_allowance ∧
      0 ≤ s.bucket_capacity ∧ 0 ≤ s.target_bandwidth ∧
      s.burst_allowance = 6 / 5 := by
  induction h with
  | init bw t0 hbw =>
    refine ⟨hbw, ?_, hbw, hbw, rfl⟩
    simp only [init]
    nlinarith
  | start_reset s now h ih =>
    obtain ⟨h0, h1, h2, h3, h4⟩ := ih
    exact ⟨h2, by rw [h4]; nlinarith, h2, h3, h4⟩
  | consume s now amount h hnow ih =>
    obtain ⟨h0, h1, h2, h3, h4⟩ := ih
    have hcap : 0 ≤ s.bucket_capacity * s.burst_allowance := by
      rw [h4]; nlinarith
    have hamt : (0 : ℚ) ≤ (amount : ℚ) := Nat.cast_nonneg amount
    have hmin0 : 0 ≤ min (s.tokens +
        (now - s.last_token_update) * s.target_bandwidth)
        (s.bucket_capacity * s.burst_allowance) :=
      le_min (by nlinarith) hcap
    have hmin1 : min (s.tokens +
        (now - s.last_token_update) * s.target_bandwidth)
        (s.bucket_capacity * s.burst_allowance) ≤
        s.bucket_capacity * s.burst_allowance := min_le_right _ _
    simp only [consumeTokens, updateTokens]
    by_cases hc : (amount : ℚ) ≤ min (s.tokens +
        (now - s.last_token_update) * s.target_bandwidth)
        (s.bucket_capacity * s.burst_allowance)
    · simp only [if_pos hc]
      refine ⟨by linarith, by linarith, h2, h3, h4⟩
    · simp only [if_neg hc]
      exact ⟨hmin0, hmin1, h2, h3, h4⟩

theorem min_refill_step (a c b t₀ t L : ℚ) (hb : 0 ≤ b) (hL : t ≤ L) :
    min (a + (L - t₀) * b) c ≤
      min (min (a + (t - t₀) * b) c + (L - t) * b) c := by
  have hd : 0 ≤ (L - t) * b := mul_nonneg (by linarith) hb
  rcases le_total (a + (t - t₀) * b) c with hle | hle
  · rw [min_eq_left hle]
    have he : a + (t - t₀) * b + (L - t) * b = a + (L - t₀) * b := by ring
    rw [he]
  · rw [min_eq_right hle,
      min_eq_right (show c ≤ c + (L - t) * b by linarith)]
    exact min_le_right _ _

theorem chain_le_getLastD {x : ℚ} {l : List ℚ}
    (h : List.Chain' (· ≤ ·) (x :: l)) : x ≤ l.getLastD x := by
  induction l generalizing x with
  | nil => simp
  | cons y ys ih =>
    rw [List.getLastD_cons]
    rcases List.chain'_cons.1 h with ⟨hxy, h2⟩
    exact le_trans hxy (ih h2)

theorem foldl_updateTokens_upper (ts : List ℚ) :
    ∀ s : State, s.tokens ≤ s.bucket_capacity * s.burst_allowance →
      (ts.foldl updateTokens s).tokens ≤
        s.bucket_capacity * s.burst_allowance := by
  induction ts with
  | nil => intro s h; exact h
  | cons t ts ih =>
    intro s h
    exact ih (updateTokens s t) (min_le_right _ _)

theorem foldl_updateTokens_lower (ts : List ℚ) :
    ∀ s : State, 0 ≤ s.tokens → 0 ≤ s.target_bandwidth →
      0 ≤ s.bucket_capacity * s.burst_allowance →
      List.Chain' (· ≤ ·) (s.last_token_update :: ts) →
      min (s.tokens + (ts.getLastD s.last_token_update -
          s.last_token_update) * s.target_bandwidth)
        (s.bucket_capacity * s.burst_allowance) ≤
      (ts.foldl updateTokens s).tokens := by
  induction ts with
  | nil =>
    intro s h0 hb hcap hch
    have he : s.tokens + (s.last_token_update - s.last_token_update) *
        s.target_bandwidth = s.tokens := by ring
    simp only [List.foldl_nil, List.getLastD, he]
    exact min_le_left _ _
  | cons t ts ih =>
    intro s h0 hb hcap hch
    simp only [List.foldl_cons, List.getLastD_cons]
    obtain ⟨hxt, hch2⟩ := List.chain'_cons.1 hch
    have h02 : 0 ≤ (updateTokens s t).tokens := le_min (by nlinarith) hcap
    have IH := ih (updateTokens s t) h02 hb hcap hch2
    simp only [updateTokens] at IH
    refine le_trans ?_ IH
    exact min_refill_step s.tokens _ s.target_bandwidth s.last_token_update t
      (ts.getLastD t) hb (chain_le_getLastD hch2)

end TrafficSimulator

/-- Claim C5: from any limiter state reachable through initialization, the
start() reset and _consume_tokens steps, the token level never exceeds the
bucket's saturation level bucket_capacity * burst_allowance (the
burst-allowance cap); an unsuccessful _consume_tokens is exactly a refill;
and after refills spanning at least (capacity * burst_allowance) /
target_rate seconds with no successful consumption the level equals that
cap exactly — it saturates instead of growing. -/
theorem token_bucket_saturation :
    (∀ s : TrafficSimulator.State, TrafficSimulator.Reach s →
      s.tokens ≤ s.bucket_capacity * s.burst_allowance) ∧
    (∀ (s : TrafficSimulator.State) (now : ℚ) (amount : Nat),
      ¬ (amount : ℚ) ≤ (TrafficSimulator.updateTokens s now).tokens →
      (TrafficSimulator.consumeTokens s now amount).1 =
        TrafficSimulator.updateTokens s now) ∧
    (∀ (s : TrafficSimulator.State) (ts : List ℚ),
      TrafficSimulator.Reach s → 0 < s.target_bandwidth →
      List.Chain' (· ≤ ·) (s.last_token_update :: ts) →
      s.bucket_capacity * s.burst_allowance / s.target_bandwidth ≤
        ts.getLastD s.last_token_update - s.last_token_update →
      (ts.foldl TrafficSimulator.updateTokens s).tokens =
        s.bucket_capacity * s.burst_allowance) := by
  refine ⟨?_, ?_, ?_⟩
  · intro s h
    exact (TrafficSimulator.reach_inv s h).2.1
  · intro s now amount hno
    simp only [TrafficSimulator.consumeTokens]
    rw [if_neg hno]
  · intro s ts hreach hbw hch hlast
    obtain ⟨h0, h1, h2, h3, h4⟩ := TrafficSimulator.reach_inv s hreach
    have hcap : 0 ≤ s.bucket_capacity * s.burst_allowance := by
      rw [h4]; nlinarith
    have hlow := TrafficSimulator.foldl_updateTokens_lower ts s h0
      (le_of_lt hbw) hcap hch
    have hup := TrafficSimulator.foldl_updateTokens_upper ts s h1
    have harea : s.bucket_capacity * s.burst_allowance ≤
        (ts.getLastD s.last_token_update - s.last_token_update) *
          s.target_bandwidth := by
      rw [div_le_iff₀ hbw] at hlast
      linarith
    rw [min_eq_right (by linarith)] at hlow
    exact le_antisymm hup hlow

/-- Concrete instantiation: a fresh limiter with rate 2 constructed at time
0 satisfies the cap bound, and a single refill at time 2 saturates it at
2 * 1.2 = 2.4 tokens. -/
theorem token_bucket_saturation_witness :
    ((TrafficSimulator.init 2 0).tokens ≤
      (TrafficSimulator.init 2 0).bucket_capacity *
        (TrafficSimulator.init 2 0).burst_allowance) ∧
    (([2] : List ℚ).foldl TrafficSimulator.updateTokens
        (TrafficSimulator.init 2 0)).tokens =
      (TrafficSimulator.init 2 0).bucket_capacity *
        (TrafficSimulator.init 2 0).burst_allowance :=
  ⟨token_bucket_saturation.1 _ (TrafficSimulator.Reach.init 2 0 (by norm_num)),
    token_bucket_saturation.2.2 (TrafficSimulator.init 2 0) [2]
      (TrafficSimulator.Reach.init 2 0 (by norm_num))
      (by norm_num [TrafficSimulator.init])
      (by simp [TrafficSimulator.init, List.chain'_cons])
      (by simp [TrafficSimulator.init]; norm_num)⟩

/-- Claim C4: _consume_tokens first refills by elapsed time times the target
rate, capping the level at the bucket's maximum
(bucket_capacity * burst_allowance); when the refilled level covers the
request it subtracts exactly the requested amount and returns true,
otherwise it returns false and leaves the level at the refilled value; the
level never becomes negative. -/
theorem consume_tokens_spec (s : TrafficSimulator.State) (now : ℚ)
    (amount : Nat) (ht : 0 ≤ s.tokens) (hnow : s.last_token_update ≤ now)
    (hbw : 0 ≤ s.target_bandwidth)
    (hcap : 0 ≤ s.bucket_capacity * s.burst_allowance) :
    ((TrafficSimulator.consumeTokens s now amount).2 = true ↔
      (amount : ℚ) ≤ min (s.tokens +
        (now - s.last_token_update) * s.target_bandwidth)
        (s.bucket_capacity * s.burst_allowance)) ∧
    (TrafficSimulator.consumeTokens s now amount).1.tokens =
      (if (amount : ℚ) ≤ min (s.tokens +
          (now - s.last_token_update) * s.target_bandwidth)
          (s.bucket_capacity * s.burst_allowance) then
        min (s.tokens + (now - s.last_token_update) * s.target_bandwidth)
          (s.bucket_capacity * s.burst_allowance) - (amount : ℚ)
      else
        min (s.tokens + (now - s.last_token_update) * s.target_bandwidth)
          (s.bucket_capacity * s.burst_allowance)) ∧
    (TrafficSimulator.consumeTokens s now amount).1.last_token_update = now ∧
    0 ≤ (TrafficSimulator.consumeTokens s now amount).1.tokens := by
  have hmin0 : 0 ≤ min (s.tokens +
      (now - s.last_token_update) * s.target_bandwidth)
      (s.bucket_capacity * s.burst_allowance) := by
    refine le_min ?_ hcap
    nlinarith
  simp only [TrafficSimulator.consumeTokens, TrafficSimulator.updateTokens]
  by_cases hc : (amount : ℚ) ≤ min (s.tokens +
      (now - s.last_token_update) * s.target_bandwidth)
      (s.bucket_capacity * s.burst_allowance)
  · simp only [if_pos hc]
    refine ⟨by simp [hc], by trivial, by trivial, ?_⟩
    linarith
  · simp only [if_neg hc]
    refine ⟨by simp [hc], by trivial, by trivial, ?_⟩
    exact hmin0

/-- Concrete instantiation of the consume semantics on a fresh limiter with
rate 2 at time 1 for a 1-byte request. -/
theorem consume_tokens_spec_witness :
    ((TrafficSimulator.consumeTokens (TrafficSimulator.init 2 0) 1 1).2 =
        true ↔
      ((1 : Nat) : ℚ) ≤ min ((TrafficSimulator.init 2 0).tokens +
        (1 - (TrafficSimulator.init 2 0).last_token_update) *
          (TrafficSimulator.init 2 0).target_bandwidth)
        ((TrafficSimulator.init 2 0).bucket_capacity *
          (TrafficSimulator.init 2 0).burst_allowance)) ∧
    (TrafficSimulator.consumeTokens (TrafficSimulator.init 2 0) 1 1).1.tokens =
      (if ((1 : Nat) : ℚ) ≤ min ((TrafficSimulator.init 2 0).tokens +
          (1 - (TrafficSimulator.init 2 0).last_token_update) *
            (TrafficSimulator.init 2 0).target_bandwidth)
          ((TrafficSimulator.init 2 0).bucket_capacity *
            (TrafficSimulator.init 2 0).burst_allowance) then
        min ((TrafficSimulator.init 2 0).tokens +
          (1 - (TrafficSimulator.init 2 0).last_token_update) *
            (TrafficSimulator.init 2 0).target_bandwidth)
          ((TrafficSimulator.init 2 0).bucket_capacity *
            (TrafficSimulator.init 2 0).burst_allowance) - ((1 : Nat) : ℚ)
      else
        min ((TrafficSimulator.init 2 0).tokens +
          (1 - (TrafficSimulator.init 2 0).last_token_update) *
            (TrafficSimulator.init 2 0).target_bandwidth)
          ((TrafficSimulator.init 2 0).bucket_capacity *
            (TrafficSimulator.init 2 0).burst_allowance)) ∧
    (TrafficSimulator.consumeTokens (TrafficSimulator.init 2 0)
      1 1).1.last_token_update = 1 ∧
    0 ≤ (TrafficSimulator.consumeTokens (TrafficSimulator.init 2 0)
      1 1).1.tokens :=
  consume_tokens_spec (TrafficSimulator.init 2 0) 1 1
    (by norm_num [TrafficSimulator.init])
    (by norm_num [TrafficSimulator.init])
    (by norm_num [TrafficSimulator.init])
    (by norm_num [TrafficSimulator.init])

/-- Claim C6: with no RECEIVED probe in the history, get_statistics returns
a record (it cannot raise) whose loss rate is 100 when at least one probe
was sent and 0 otherwise, and whose RTT and jitter aggregates — average,
min, max, standard deviation, 95th and 99th percentile — are all 0. -/
theorem getStatistics_zero_received (s : InjState)
    (h : s.history.filter (fun p => decide (p.status = "RECEIVED")) = []) :
    (getStatistics s).loss_rate =
        (if s.stats.total_sent ≠ 0 then 100 else 0) ∧
      (getStatistics s).total_received = 0 ∧
      (getStatistics s).avg_rtt_ms = 0 ∧
      (getStatistics s).min_rtt_ms = 0 ∧
      (getStatistics s).max_rtt_ms = 0 ∧
      (getStatistics s).std_rtt_ms = 0 ∧
      (getStatistics s).avg_jitter_ms = 0 ∧
      (getStatistics s).max_jitter_ms = 0 ∧
      (getStatistics s).percentile_95_ms = 0 ∧
      (getStatistics s).percentile_99_ms = 0 := by
  simp [getStatistics, h]

/-- Concrete instantiation: a state with two sent and zero received probes
reports loss_rate 100 and zeroed delay statistics. -/
theorem getStatistics_zero_received_witness :
    (getStatistics injW3).loss_rate =
        (if injW3.stats.total_sent ≠ 0 then 100 else 0) ∧
      (getStatistics injW3).total_received = 0 ∧
      (getStatistics injW3).avg_rtt_ms = 0 ∧
      (getStatistics injW3).min_rtt_ms = 0 ∧
      (getStatistics injW3).max_rtt_ms = 0 ∧
      (getStatistics injW3).std_rtt_ms = 0 ∧
      (getStatistics injW3).avg_jitter_ms = 0 ∧
      (getStatistics injW3).max_jitter_ms = 0 ∧
      (getStatistics injW3).percentile_95_ms = 0 ∧
      (getStatistics injW3).percentile_99_ms = 0 :=
  getStatistics_zero_received injW3 rfl

/-- Claim C8: every OK measurement satisfies the four-timestamp
decomposition: forward = (t2-t1)*1000, return = (t4-t3)*1000,
rtt = (t4-t1)*1000, processing = (t3-t2)*1000 and
asymmetry = forward - return, over the timestamps recorded in the
measurement (those carried in, or stamped on, the matching response). -/
theorem measure_ok_decomposition (pid : Nat) (t1 : ℚ)
    (resp : Option P900Tester.RespData)
    (h : (P900Tester.measureOne pid t1 resp).status = "OK") :
    (P900Tester.measureOne pid t1 resp).forward_delay_ms =
        ((P900Tester.measureOne pid t1 resp).t2_slave_receive -
          (P900Tester.measureOne pid t1 resp).t1_master_send) * 1000 ∧
      (P900Tester.measureOne pid t1 resp).return_delay_ms =
        ((P900Tester.measureOne pid t1 resp).t4_master_receive -
          (P900Tester.measureOne pid t1 resp).t3_slave_send) * 1000 ∧
      (P900Tester.measureOne pid t1 resp).rtt_ms =
        ((P900Tester.measureOne pid t1 resp).t4_master_receive -
          (P900Tester.measureOne pid t1 resp).t1_master_send) * 1000 ∧
      (P900Tester.measureOne pid t1 resp).processing_time_ms =
        ((P900Tester.measureOne pid t1 resp).t3_slave_send -
          (P900Tester.measureOne pid t1 resp).t2_slave_receive) * 1000 ∧
      (P900Tester.measureOne pid t1 resp).asymmetry_ms =
        (P900Tester.measureOne pid t1 resp).forward_delay_ms -
          (P900Tester.measureOne pid t1 resp).return_delay_ms := by
  match resp with
  | none => simp [P900Tester.measureOne] at h
  | some rd =>
    by_cases hid : rd.packet_id = pid
    · simp [P900Tester.measureOne, hid]
    · simp [P900Tester.measureOne, hid] at h

/-- Concrete instantiation: a matching response with timestamps 1, 2, 4, 6
yields an OK record obeying the decomposition. -/
theorem measure_ok_decomposition_witness :
    (P900Tester.measureOne 3 1 (some ⟨3, 1, 2, 4, 6⟩)).forward_delay_ms =
        ((P900Tester.measureOne 3 1
            (some ⟨3, 1, 2, 4, 6⟩)).t2_slave_receive -
          (P900Tester.measureOne 3 1
            (some ⟨3, 1, 2, 4, 6⟩)).t1_master_send) * 1000 ∧
      (P900Tester.measureOne 3 1 (some ⟨3, 1, 2, 4, 6⟩)).return_delay_ms =
        ((P900Tester.measureOne 3 1
            (some ⟨3, 1, 2, 4, 6⟩)).t4_master_receive -
          (P900Tester.measureOne 3 1
            (some ⟨3, 1, 2, 4, 6⟩)).t3_slave_send) * 1000 ∧
      (P900Tester.measureOne 3 1 (some ⟨3, 1, 2, 4, 6⟩)).rtt_ms =
        ((P900Tester.measureOne 3 1
            (some ⟨3, 1, 2, 4, 6⟩)).t4_master_receive -
          (P900Tester.measureOne 3 1
            (some ⟨3, 1, 2, 4, 6⟩)).t1_master_send) * 1000 ∧
      (P900Tester.measureOne 3 1
          (some ⟨3, 1, 2, 4, 6⟩)).processing_time_ms =
        ((P900Tester.measureOne 3 1 (some ⟨3, 1, 2, 4, 6⟩)).t3_slave_send -
          (P900Tester.measureOne 3 1
            (some ⟨3, 1, 2, 4, 6⟩)).t2_slave_receive) * 1000 ∧
      (P900Tester.measureOne 3 1 (some ⟨3, 1, 2, 4, 6⟩)).asymmetry_ms =
        (P900Tester.measureOne 3 1 (some ⟨3, 1, 2, 4, 6⟩)).forward_delay_ms -
          (P900Tester.measureOne 3 1
            (some ⟨3, 1, 2, 4, 6⟩)).return_delay_ms :=
  measure_ok_decomposition 3 1 (some ⟨3, 1, 2, 4, 6⟩) rfl

theorem randFloat_fst_ok {rs : List ℚ} (h : OracleOk rs) :
    0 ≤ (randFloat rs).1 ∧ (randFloat rs).1 < 1 := by
  cases rs with
  | nil => constructor <;> norm_num [randFloat]
  | cons r rest => exact h r (by simp)

theorem randFloat_snd_ok {rs : List ℚ} (h : OracleOk rs) :
    OracleOk (randFloat rs).2 := by
  cases rs with
  | nil => exact h
  | cons r rest =>
    intro x hx
    simp only [randFloat] at hx
    exact h x (by simp [hx])

theorem randInt_bounds (a b : Nat) (rs : List ℚ) (hab : a ≤ b)
    (h : OracleOk rs) :
    a ≤ (randInt a b rs).1 ∧ (randInt a b rs).1 ≤ b := by
  obtain ⟨h0, h1⟩ := randFloat_fst_ok h
  have habq : ((a : ℚ)) ≤ (b : ℚ) := by exact_mod_cast hab
  have hspan : (0 : ℚ) < (b : ℚ) + 1 - (a : ℚ) := by linarith
  have hcast : (b : ℚ) + 1 - (a : ℚ) = ((b + 1 - a : ℕ) : ℚ) := by
    push_cast [Nat.cast_sub (by omega : a ≤ b + 1)]
    ring
  have hflt : ⌊(randFloat rs).1 * ((b : ℚ) + 1 - (a : ℚ))⌋ <
      ((b + 1 - a : ℕ) : ℤ) := by
    refine Int.floor_lt.2 ?_
    have hc2 : (((b + 1 - a : ℕ) : ℤ) : ℚ) = (b : ℚ) + 1 - (a : ℚ) := by
      push_cast [Nat.cast_sub (by omega : a ≤ b + 1)]
      ring
    rw [hc2]
    nlinarith
  have hfge : 0 ≤ ⌊(randFloat rs).1 * ((b : ℚ) + 1 - (a : ℚ))⌋ :=
    Int.floor_nonneg.2 (by nlinarith)
  constructor
  · exact Nat.le_add_right a _
  · simp only [randInt]
    omega

theorem randInt_snd_ok (a b : Nat) {rs : List ℚ} (h : OracleOk rs) :
    OracleOk (randInt a b rs).2 := randFloat_snd_ok h

theorem randChoice_mem (l : List Nat) (rs : List ℚ) (hne : l ≠ [])
    (h : OracleOk rs) : (randChoice l rs).1 ∈ l := by
  obtain ⟨h0, h1⟩ := randFloat_fst_ok h
  have hlen : (0 : ℚ) < (l.length : ℚ) := by
    have : 0 < l.length := List.length_pos.2 hne
    exact_mod_cast this
  have hflt : ⌊(randFloat rs).1 * (l.length : ℚ)⌋ < (l.length : ℤ) := by
    refine Int.floor_lt.2 ?_
    push_cast
    nlinarith
  have hfge : 0 ≤ ⌊(randFloat rs).1 * (l.length : ℚ)⌋ :=
    Int.floor_nonneg.2 (by nlinarith)
  have hidx : (⌊(randFloat rs).1 * (l.length : ℚ)⌋).toNat < l.length := by
    omega
  rw [randChoice, List.getD_eq_getElem l 0 hidx]
  exact List.getElem_mem hidx

theorem randChoice_snd_ok (l : List Nat) {rs : List ℚ} (h : OracleOk rs) :
    OracleOk (randChoice l rs).2 := randFloat_snd_ok h

theorem weightedPickAux_mem (l : List PacketProfile) :
    ∀ (target acc : ℚ) (p : PacketProfile),
      weightedPickAux target acc l = some p → p ∈ l := by
  induction l with
  | nil => intro target acc p hp; simp [weightedPickAux] at hp
  | cons c rest ih =>
    intro target acc p hp
    rw [weightedPickAux] at hp
    by_cases hc : target < acc + c.weight
    · rw [if_pos hc] at hp
      simp at hp
      simp [hp]
    · rw [if_neg hc] at hp
      exact List.mem_cons_of_mem c (ih target (acc + c.weight) p hp)

theorem pickCategory_mem (l : List DistCategory) :
    ∀ (r acc : ℚ) (c : DistCategory),
      pickCategory r acc l = some c → c ∈ l := by
  induction l with
  | nil => intro r acc c hc; simp [pickCategory] at hc
  | cons d rest ih =>
    intro r acc c hc
    rw [pickCategory] at hc
    by_cases hd : r < acc + d.probability
    · rw [if_pos hd] at hc
      simp at hc
      simp [hc]
    · rw [if_neg hd] at hc
      exact List.mem_cons_of_mem d (ih r (acc + d.probability) c hc)

theorem defaultProfile_categories_ok :
    ∀ c ∈ defaultProfile.size_distribution,
      c.min_bytes ≤ min c.max_bytes 82 ∧ min c.max_bytes 82 ≤ 82 := by
  decide

theorem defaultProfile_representative_ok :
    ∀ x ∈ defaultProfile.representative_sizes, 13 ≤ x ∧ x ≤ 82 := by
  decide

theorem defaultProfile_profiles_ok :
    ∀ p ∈ defaultProfile.packet_profiles, p.size ≤ 82 := by
  decide

theorem sampleFromDistribution_bounds (rs : List ℚ) (h : OracleOk rs) :
    (sampleFromDistribution defaultProfile rs).1 ≤ 82 := by
  have h2 : OracleOk (randFloat rs).2 := randFloat_snd_ok h
  rw [sampleFromDistribution]
  cases hcat : pickCategory (randFloat rs).1 0
      defaultProfile.size_distribution with
  | none =>
    have hmem := randChoice_mem defaultProfile.representative_sizes
      (randFloat rs).2 (by decide) h2
    exact (defaultProfile_representative_ok _ hmem).2
  | some c =>
    have hc := pickCategory_mem _ _ _ _ hcat
    obtain ⟨hlo, hhi⟩ := defaultProfile_categories_ok c hc
    exact le_trans (randInt_bounds _ _ _ hlo h2).2 hhi

theorem sampleFromDistribution_snd_ok (p : MAVLinkProfile) (rs : List ℚ)
    (h : OracleOk rs) : OracleOk (sampleFromDistribution p rs).2 := by
  have h2 : OracleOk (randFloat rs).2 := randFloat_snd_ok h
  rw [sampleFromDistribution]
  cases pickCategory (randFloat rs).1 0 p.size_distribution with
  | none => exact randChoice_snd_ok _ h2
  | some c => exact randInt_snd_ok _ _ h2

theorem oneSize_bounds (mode : String) (rs : List ℚ) (h : OracleOk rs) :
    (oneSize defaultProfile mode rs).1 ≤ 82 ∧
      ((mode = "representative" ∨ mode = "random") →
        13 ≤ (oneSize defaultProfile mode rs).1) := by
  rw [oneSize]
  by_cases h1 : mode = "representative"
  · rw [if_pos h1]
    have hmem := randChoice_mem defaultProfile.representative_sizes rs
      (by decide) h
    exact ⟨(defaultProfile_representative_ok _ hmem).2,
      fun _ => (defaultProfile_representative_ok _ hmem).1⟩
  · rw [if_neg h1]
    by_cases h2 : mode = "random"
    · rw [if_pos h2]
      have hb := randInt_bounds defaultProfile.min_size
        defaultProfile.max_size rs (by decide) h
      exact ⟨hb.2, fun _ => hb.1⟩
    · rw [if_neg h2]
      have hvac : (mode = "representative" ∨ mode = "random") → False := by
        rintro (hm | hm) <;> simp_all
      have h3 : OracleOk (randFloat rs).2 := randFloat_snd_ok h
      by_cases hbr : (randFloat rs).1 < 7 / 10 ∧
          defaultProfile.packet_profiles ≠ []
      · rw [if_pos hbr]
        cases hpick : weightedPick defaultProfile.packet_profiles
            (randFloat (randFloat rs).2).1 with
        | none => exact ⟨by norm_num, fun hm => absurd hm (by simpa using hvac)⟩
        | some prof =>
          have hmem := weightedPickAux_mem _ _ _ _ hpick
          exact ⟨defaultProfile_profiles_ok prof hmem,
            fun hm => absurd hm (by simpa using hvac)⟩
      · rw [if_neg hbr]
        exact ⟨sampleFromDistribution_bounds _ h3,
          fun hm => absurd hm (by simpa using hvac)⟩

theorem oneSize_snd_ok (p : MAVLinkProfile) (mode : String) (rs : List ℚ)
    (h : OracleOk rs) : OracleOk (oneSize p mode rs).2 := by
  rw [oneSize]
  by_cases h1 : mode = "representative"
  · rw [if_pos h1]; exact randChoice_snd_ok _ h
  · rw [if_neg h1]
    by_cases h2 : mode = "random"
    · rw [if_pos h2]; exact randInt_snd_ok _ _ h
    · rw [if_neg h2]
      have h3 : OracleOk (randFloat rs).2 := randFloat_snd_ok h
      by_cases hbr : (randFloat rs).1 < 7 / 10 ∧ p.packet_profiles ≠ []
      · rw [if_pos hbr]
        cases weightedPick p.packet_profiles (randFloat (randFloat rs).2).1 with
        | none => exact randFloat_snd_ok h3
        | some prof => exact randFloat_snd_ok h3
      · rw [if_neg hbr]
        exact sampleFromDistribution_snd_ok p _ h3

/-- Claim C7 (amended): for the default profile, sizes drawn in
representative and random modes always lie in [min_size, max_size] =
[13, 82]; sizes drawn in realistic mode (the remaining branch of
get_packet_sizes) are still bounded by 82, but can fall below 13, because
the tiny distribution category draws uniformly from [0, 25]. -/
theorem getPacketSizes_bounds (count : Nat) (mode : String) (rs : List ℚ)
    (h : OracleOk rs) :
    ∀ sz ∈ (getPacketSizes defaultProfile count mode rs).1,
      sz ≤ 82 ∧ ((mode = "representative" ∨ mode = "random") → 13 ≤ sz) := by
  induction count generalizing rs with
  | zero => simp [getPacketSizes]
  | succ n ihn =>
    intro sz hsz
    rw [getPacketSizes] at hsz
    rcases List.mem_cons.1 hsz with rfl | hmem
    · exact oneSize_bounds mode rs h
    · exact ihn (oneSize defaultProfile mode rs).2
        (oneSize_snd_ok _ _ _ h) sz hmem

/-- Claim C7 counterexample: in realistic mode, the oracle draws 0.8 (skip
the common-message branch), 0.1 (select the tiny category) and 0 (bottom of
randint(0, 25)) make get_packet_sizes return the size 0, which lies below
the profile's min_size of 13. -/
theorem getPacketSizes_bounds_cex :
    (getPacketSizes defaultProfile 1 realisticMode [4 / 5, 1 / 10, 0]).1 =
        [0] ∧
      ¬ (13 ≤ (0 : ℕ)) := by
  constructor
  · norm_num [getPacketSizes, oneSize, sampleFromDistribution, pickCategory,
      randInt, randChoice, randFloat, defaultProfile]
    rw [if_neg (by decide), if_neg (by decide)]
  · decide

/-- Concrete instantiation of the amended bounds: the single size drawn in
representative mode with an exhausted oracle is 13, which the theorem puts
inside [13, 82]. -/
theorem getPacketSizes_bounds_witness : (13 : ℕ) ≤ 82 ∧ (13 : ℕ) ≤ 13 := by
  have hlist : (getPacketSizes defaultProfile 1 representativeMode []).1 =
      [13] := by
    norm_num [getPacketSizes, oneSize, randChoice, randFloat, defaultProfile]
    rw [if_pos (show representativeMode = "representative" from rfl)]
  have h := getPacketSizes_bounds 1 representativeMode []
    (by intro r hr; simp at hr) 13 (by rw [hlist]; simp)
  exact ⟨h.1, h.2 (Or.inl rfl)⟩

end P900

